import Mathlib

/-!
# Territorial Control — verification of the core game logic

Shallow embedding of the turn-based territory game implemented in
`src/main.cpp`.  The grid is a square matrix of `CellState`
(`NEUTRAL`/`PLAYER`/`AI`); the player and a scripted AI alternately capture
cells.  Rendering, audio and window plumbing are out of scope; the embedding
covers the session state, move validation, ordinary captures, the two impulse
moves, AI move selection and the win condition.

Randomness (the AI coin flips, the uniform move pick and the shuffles) is
modelled by explicit parameters: the coin-flip results, the index drawn by
`uniform_int_distribution`, and the shuffled lists (constrained to be
permutations of the lists the source shuffles).

Input is modelled per rendered frame (`handleInputFrame`): the frame's
optional mouse click and impulse key are processed in the source's order,
with the enclosing turn guard of `handleInput` evaluated once at frame
entry.  This keeps the same-frame interactions of the source observable —
in particular a frame carrying both a valid capture click and an `A`/`S`
press enters impulse selection after the click has already ended the
player's turn.
-/

set_option maxHeartbeats 1000000
set_option maxRecDepth 100000

namespace Terra

/-- `enum class CellState { NEUTRAL, PLAYER, AI }` from the source. -/
inductive Cell where
  | neutral
  | player
  | ai
deriving DecidableEq, Repr

/-- `enum class GameResult { NONE, PLAYER_WIN, AI_WIN, DRAW }` from the source. -/
inductive GameResult where
  | none
  | playerWin
  | aiWin
  | draw
deriving DecidableEq, Repr

/-- `enum class ImpulseMode { NONE, ATTACK, SPEED }` from the source. -/
inductive ImpulseMode where
  | none
  | attack
  | speed
deriving DecidableEq, Repr

/-- The board: `std::vector<std::vector<CellState>> grid`, indexed `grid[x][y]`. -/
abbrev Grid := List (List Cell)

/-- `const int IMPULSE_COST = 3` (the global `impulseCost` is never reassigned). -/
def impulseCost : Int := 3

/-- `const int WIN_PERCENTAGE = 45`. -/
def winPercentage : Nat := 45

/-- Read `grid[x][y]`.  All reads performed by the source are in bounds for a
well-formed grid; out-of-range reads default to `neutral`. -/
def cellAt (g : Grid) (x y : Int) : Cell :=
  if 0 ≤ x ∧ 0 ≤ y then (g.getD x.toNat []).getD y.toNat Cell.neutral
  else Cell.neutral

/-- Write `grid[x][y] = v`.  Writes outside the allocated grid are dropped
(the C++ would be undefined behaviour there; the reset-bug theorem records
where that happens). -/
def setCell (g : Grid) (x y : Int) (v : Cell) : Grid :=
  if 0 ≤ x ∧ 0 ≤ y then g.set x.toNat ((g.getD x.toNat []).set y.toNat v)
  else g

/-- Number of cells of a row holding state `c`. -/
def countRow : List Cell → Cell → Nat
  | [], _ => 0
  | a :: t, c => (if a = c then 1 else 0) + countRow t c

/-- Number of cells of the whole grid holding state `c` (the quantity the
source tracks in the `playerCells` / `aiCells` counters). -/
def countGrid : Grid → Cell → Nat
  | [], _ => 0
  | r :: g, c => countRow r c + countGrid g c

/-- The global session state of the source (`gridSize`, the grid, the cell and
charge counters, the turn flag, the impulse-selection state and the game
result).  The float `aiTimer` is left out: the AI turn is modelled at the
moment it fires (`aiTimer >= AI_DELAY`). -/
structure GameState where
  gridSize : Nat
  grid : Grid
  playerCells : Int
  aiCells : Int
  playerCharges : Int
  aiCharges : Int
  playerTurn : Bool
  impulseModeActive : Bool
  currentImpulseMode : ImpulseMode
  selectedCells : List (Int × Int)
  gameResult : GameResult
deriving DecidableEq, Repr

/-- A coordinate pair lies inside the `n × n` playing area. -/
def inPlayArea (n : Nat) (c : Int × Int) : Prop :=
  0 ≤ c.1 ∧ c.1 < (n : Int) ∧ 0 ≤ c.2 ∧ c.2 < (n : Int)

instance (n : Nat) (c : Int × Int) : Decidable (inPlayArea n c) := by
  unfold inPlayArea; infer_instance

/-- `getAdjacentCells(x, y)`: the up/down/left/right neighbours, clipped to
grid bounds, in the source's `dx = {-1,1,0,0}, dy = {0,0,-1,1}` order. -/
def getAdjacentCells (n : Nat) (x y : Int) : List (Int × Int) :=
  [(x - 1, y), (x + 1, y), (x, y - 1), (x, y + 1)].filter
    (fun c => decide (inPlayArea n c))

/-- `isValidMove(x, y, player)`: in bounds, currently neutral, and with at
least one 4-neighbour owned by `p`. -/
def isValidMove (s : GameState) (x y : Int) (p : Cell) : Bool :=
  decide (inPlayArea s.gridSize (x, y)) &&
    (cellAt s.grid x y == Cell.neutral) &&
    (getAdjacentCells s.gridSize x y).any
      (fun c => cellAt s.grid c.1 c.2 == p)

/-- `0, 1, ..., n-1` as `Int`s, the index range of the source's grid loops. -/
def intRange (n : Nat) : List Int :=
  (List.range n).map (fun (m : Nat) => (m : Int))

/-- A row-major scan of the grid (x outer, y inner, both ascending), keeping
the coordinates that satisfy `p` — the shape of every collection loop in the
source. -/
def scanCells (n : Nat) (p : Int → Int → Bool) : List (Int × Int) :=
  (intRange n).flatMap fun x =>
    ((intRange n).filter (fun y => p x y)).map (fun y => (x, y))

/-- `getAvailableMoves(player)`: all neutral cells with a neighbour owned by
`p`, in scan order. -/
def getAvailableMoves (s : GameState) (p : Cell) : List (Int × Int) :=
  scanCells s.gridSize fun x y =>
    (cellAt s.grid x y == Cell.neutral) &&
      (getAdjacentCells s.gridSize x y).any (fun c => cellAt s.grid c.1 c.2 == p)

/-- The `attackableCells` collection of `getAIAttackMove`: player-owned cells
with at least one AI neighbour. -/
def getAttackableCells (s : GameState) : List (Int × Int) :=
  scanCells s.gridSize fun x y =>
    (cellAt s.grid x y == Cell.player) &&
      (getAdjacentCells s.gridSize x y).any (fun c => cellAt s.grid c.1 c.2 == Cell.ai)

/-- `initializeGame()` run with `gridSize = n` on a not-yet-allocated grid:
`grid.resize(n, vector(n, NEUTRAL))`, the two starting cells, and the counter
and flag initialisation. -/
def initializeGame (n : Nat) : GameState :=
  { gridSize := n
    grid := setCell (setCell (List.replicate n (List.replicate n Cell.neutral))
              0 0 Cell.player) ((n : Int) - 1) ((n : Int) - 1) Cell.ai
    playerCells := 1
    aiCells := 1
    playerCharges := 0
    aiCharges := 0
    playerTurn := true
    impulseModeActive := false
    currentImpulseMode := ImpulseMode.none
    selectedCells := []
    gameResult := GameResult.none }

/-- The writes `resetGame()` performs on the grid, in order: every
`grid[x][y]` for `x, y < gridSize`, then `grid[0][0]` and
`grid[gridSize-1][gridSize-1]`.  `resetGame` does NOT resize the grid first. -/
def resetGameWrites (n : Nat) : List (Int × Int) :=
  ((intRange n).flatMap fun x => (intRange n).map fun y => (x, y)) ++
    [(0, 0), ((n : Int) - 1, (n : Int) - 1)]

/-- A single access `grid[c.1][c.2]` stays inside the allocated vectors. -/
def accessInBounds (g : Grid) (c : Int × Int) : Prop :=
  0 ≤ c.1 ∧ c.1.toNat < g.length ∧ 0 ≤ c.2 ∧ c.2.toNat < (g.getD c.1.toNat []).length

instance (g : Grid) (c : Int × Int) : Decidable (accessInBounds g c) := by
  unfold accessInBounds; infer_instance

/-- All grid accesses of `resetGame()` with `gridSize = n` are in bounds of
the currently allocated grid `g`. -/
def resetAccessesOK (g : Grid) (n : Nat) : Prop :=
  ∀ c ∈ resetGameWrites n, accessInBounds g c

instance (g : Grid) (n : Nat) : Decidable (resetAccessesOK g n) := by
  unfold resetAccessesOK; infer_instance

/-- The grid after `resetGame()` runs with `gridSize = n` on the allocated
grid `g` (writes that fall outside `g` are dropped; in C++ they are
undefined behaviour). -/
def resetGameGrid (g : Grid) (n : Nat) : Grid :=
  let cleared := (resetGameWrites n).take (n * n) |>.foldl
    (fun acc c => setCell acc c.1 c.2 Cell.neutral) g
  setCell (setCell cleared 0 0 Cell.player) ((n : Int) - 1) ((n : Int) - 1) Cell.ai

/-- The full state `resetGame()` produces (grid as `resetGameGrid`, counters
and flags reset, result cleared). -/
def resetGame (g : Grid) (n : Nat) : GameState :=
  { gridSize := n
    grid := resetGameGrid g n
    playerCells := 1
    aiCells := 1
    playerCharges := 0
    aiCharges := 0
    playerTurn := true
    impulseModeActive := false
    currentImpulseMode := ImpulseMode.none
    selectedCells := []
    gameResult := GameResult.none }

/-- The mouse-click branch of `handleInput()` during the player's turn outside
impulse mode: if the clicked grid coordinates are in bounds and the cell is a
legal capture, it becomes `PLAYER`, `playerCells++`, `playerCharges++`, and the
turn passes to the AI; otherwise nothing happens.  This is the effect of a
frame whose only input is the click and no impulse mode is active
(`handleInputFrame_click_ordinary`); `handleInputFrame` models a full frame. -/
def playerClick (s : GameState) (x y : Int) : GameState :=
  if s.playerTurn = true ∧ s.impulseModeActive = false then
    if inPlayArea s.gridSize (x, y) then
      if cellAt s.grid x y = Cell.neutral ∧ isValidMove s x y Cell.player = true then
        { s with grid := setCell s.grid x y Cell.player
                 playerCells := s.playerCells + 1
                 playerCharges := s.playerCharges + 1
                 playerTurn := false }
      else s
    else s
  else s

/-- `startImpulseMode(mode)`: only with `playerCharges >= impulseCost`;
activates impulse selection and clears the selection list. -/
def startImpulseMode (s : GameState) (m : ImpulseMode) : GameState :=
  if s.playerCharges ≥ impulseCost then
    { s with impulseModeActive := true
             currentImpulseMode := m
             selectedCells := [] }
  else s

/-- The `A`/`S` key branch of `handleInput()` taken as the frame's only input
(`handleInputFrame_key_only`): the enclosing guard — evaluated at frame entry,
here coinciding with the press since nothing precedes it — requires the
player's turn outside impulse mode, and the branch requires
`playerCharges >= impulseCost` before calling `startImpulseMode`.  In a frame
that also carries a capture click, the guard predates the click while the
charge check follows it: see `handleInputFrame`. -/
def pressImpulseKey (s : GameState) (m : ImpulseMode) : GameState :=
  if s.playerTurn = true ∧ s.impulseModeActive = false ∧ s.playerCharges ≥ impulseCost then
    startImpulseMode s m
  else s

/-- The shared shape of every impulse-resolution loop: each listed cell is set
to `v`, and `playerCells` / `aiCells` are bumped by `dp` / `da` per cell. -/
def bulkCapture (v : Cell) (dp da : Int) : List (Int × Int) → GameState → GameState
  | [], s => s
  | c :: rest, s =>
      bulkCapture v dp da rest
        { s with grid := setCell s.grid c.1 c.2 v
                 playerCells := s.playerCells + dp
                 aiCells := s.aiCells + da }

/-- The AI impulse loops additionally guard each cell with `cell.first != -1`. -/
def bulkCaptureGuarded (v : Cell) (dp da : Int) : List (Int × Int) → GameState → GameState
  | [], s => s
  | c :: rest, s =>
      if c.1 ≠ -1 then
        bulkCaptureGuarded v dp da rest
          { s with grid := setCell s.grid c.1 c.2 v
                   playerCells := s.playerCells + dp
                   aiCells := s.aiCells + da }
      else bulkCaptureGuarded v dp da rest s

/-- `handleImpulseCellSelection(x, y)`.  Attack mode: an AI-owned cell with a
player neighbour is added to the selection (deduplicated, max 2); as soon as 2
cells are selected both flip to `PLAYER` with `aiCells -= 2`,
`playerCells += 2`, `playerCharges -= impulseCost`, and the impulse finishes
with the turn passing to the AI.  Speed mode: the same with neutral cells
satisfying `isValidMove`, max 3, `playerCells += 3`. -/
def handleImpulseCellSelection (s : GameState) (x y : Int) : GameState :=
  match s.currentImpulseMode with
  | ImpulseMode.attack =>
      if cellAt s.grid x y = Cell.ai ∧
          (getAdjacentCells s.gridSize x y).any
            (fun c => cellAt s.grid c.1 c.2 == Cell.player) = true then
        let sel := if (x, y) ∈ s.selectedCells ∨ 2 ≤ s.selectedCells.length
          then s.selectedCells else s.selectedCells ++ [(x, y)]
        if 2 ≤ sel.length then
          let s' := bulkCapture Cell.player 1 (-1) sel s
          { s' with playerCharges := s'.playerCharges - impulseCost
                    impulseModeActive := false
                    currentImpulseMode := ImpulseMode.none
                    selectedCells := []
                    playerTurn := false }
        else { s with selectedCells := sel }
      else s
  | ImpulseMode.speed =>
      if cellAt s.grid x y = Cell.neutral ∧ isValidMove s x y Cell.player = true then
        let sel := if (x, y) ∈ s.selectedCells ∨ 3 ≤ s.selectedCells.length
          then s.selectedCells else s.selectedCells ++ [(x, y)]
        if 3 ≤ sel.length then
          let s' := bulkCapture Cell.player 1 0 sel s
          { s' with playerCharges := s'.playerCharges - impulseCost
                    impulseModeActive := false
                    currentImpulseMode := ImpulseMode.none
                    selectedCells := []
                    playerTurn := false }
        else { s with selectedCells := sel }
      else s
  | ImpulseMode.none => s

/-- The impulse-click branch of `handleInput()`: with impulse mode active and
the click inside the grid, forward to `handleImpulseCellSelection`.  There is
no turn check here, so selection clicks are also processed during the AI's
turn whenever impulse mode is (still) active. -/
def impulseClick (s : GameState) (x y : Int) : GameState :=
  if s.impulseModeActive = true ∧ inPlayArea s.gridSize (x, y) then
    handleImpulseCellSelection s x y
  else s

/-- One full run of `handleInput()`'s `PLAYING` branch for a rendered frame:
`click` is the frame's mouse click (grid coordinates), `key` the impulse key
pressed this frame (`attack` for `A`, `speed` for `S`, `none` otherwise).
The enclosing `if (playerTurn && !impulseModeActive)` guard is evaluated ONCE
at frame entry; inside it the click handler runs first and may set
`playerTurn = false` and bump `playerCharges`, and the key branch then reads
those updated values (`if (playerCharges >= impulseCost) { if (KEY_A) ...
else if (KEY_S) ... }`).  Afterwards `if (impulseModeActive && mousePressed)`
re-reads the now-current `impulseModeActive`, so the same click is forwarded
to `handleImpulseCellSelection` when the key press just activated impulse
mode.  Consequently a frame holding both a valid capture click and a key
press enters impulse selection with `playerTurn` already `false`. -/
def handleInputFrame (s : GameState) (click : Option (Int × Int))
    (key : ImpulseMode) : GameState :=
  let s1 :=
    if s.playerTurn = true ∧ s.impulseModeActive = false then
      let sc :=
        match click with
        | Option.some c =>
            if inPlayArea s.gridSize c then
              if cellAt s.grid c.1 c.2 = Cell.neutral ∧
                  isValidMove s c.1 c.2 Cell.player = true then
                { s with grid := setCell s.grid c.1 c.2 Cell.player
                         playerCells := s.playerCells + 1
                         playerCharges := s.playerCharges + 1
                         playerTurn := false }
              else s
            else s
        | Option.none => s
      match key with
      | ImpulseMode.none => sc
      | k => if sc.playerCharges ≥ impulseCost then startImpulseMode sc k else sc
    else s
  match click with
  | Option.some c =>
      if s1.impulseModeActive = true ∧ inPlayArea s1.gridSize c then
        handleImpulseCellSelection s1 c.1 c.2
      else s1
  | Option.none => s1

/-- `targetCells = (gridSize * gridSize * WIN_PERCENTAGE + 99) / 100`
(C++ integer division), i.e. the ceiling of 45% of the board. -/
def targetCells (n : Nat) : Nat :=
  (n * n * winPercentage + 99) / 100

/-- `checkWinCondition()`: both sides at target → draw, else player at target →
player win, else AI at target → AI win, else `gameResult` is left unchanged. -/
def checkWinCondition (s : GameState) : GameState :=
  if s.playerCells ≥ (targetCells s.gridSize : Int) ∧
      s.aiCells ≥ (targetCells s.gridSize : Int) then
    { s with gameResult := GameResult.draw }
  else if s.playerCells ≥ (targetCells s.gridSize : Int) then
    { s with gameResult := GameResult.playerWin }
  else if s.aiCells ≥ (targetCells s.gridSize : Int) then
    { s with gameResult := GameResult.aiWin }
  else s

/-- `getAIMove()`: `(-1, -1)` when no move is available, otherwise the element
of `getAvailableMoves(AI)` picked by the uniformly drawn index `i`. -/
def getAIMove (s : GameState) (i : Nat) : Int × Int :=
  let ms := getAvailableMoves s Cell.ai
  if ms.isEmpty then (-1, -1) else ms.getD (i % ms.length) (-1, -1)

/-- The mutation part of a fired AI turn (`processAITurn` once
`aiTimer >= AI_DELAY`, before `playerTurn = true; checkWinCondition()`).
`f1` and `f2` are the results of the two separate `decideAIImpulseMode()`
coin flips, `i` the index drawn in `getAIMove`, and `atk` / `spd` the shuffled
lists used by `getAIAttackMove` / `getAISpeedMove` (permutations of
`getAttackableCells` / `getAvailableMoves AI`; the branches take their first
2 resp. 3 elements). -/
def aiAct (s : GameState) (f1 f2 : ImpulseMode) (i : Nat)
    (atk spd : List (Int × Int)) : GameState :=
  if s.aiCharges ≥ impulseCost ∧ f1 = ImpulseMode.attack then
    let cells := atk.take 2
    let s' := bulkCaptureGuarded Cell.ai (-1) 1 cells s
    if cells ≠ [] then { s' with aiCharges := s'.aiCharges - impulseCost } else s'
  else if s.aiCharges ≥ impulseCost ∧ f2 = ImpulseMode.speed then
    let cells := spd.take 3
    let s' := bulkCaptureGuarded Cell.ai 0 1 cells s
    if cells ≠ [] then { s' with aiCharges := s'.aiCharges - impulseCost } else s'
  else
    let m := getAIMove s i
    if m.1 ≠ -1 then
      { s with grid := setCell s.grid m.1 m.2 Cell.ai
               aiCells := s.aiCells + 1
               aiCharges := s.aiCharges + 1 }
    else s

/-- A full fired AI turn: the chosen mutation, then `playerTurn = true` and
`checkWinCondition()`. -/
def processAITurnFired (s : GameState) (f1 f2 : ImpulseMode) (i : Nat)
    (atk spd : List (Int × Int)) : GameState :=
  checkWinCondition { aiAct s f1 f2 i atk spd with playerTurn := true }

/-- `updateGame` reaches `processAITurn` only while the session is running
(`gameResult == NONE`) and it is not the player's turn. -/
def aiCanFire (s : GameState) : Prop :=
  s.playerTurn = false ∧ s.gameResult = GameResult.none

instance (s : GameState) : Decidable (aiCanFire s) := by
  unfold aiCanFire; infer_instance

/-- One engine step of the main loop: an input frame (`handleInput` with that
frame's click and key, processed in source order — including the same-frame
click-then-key and click-forwarding behaviour), or a fired AI turn inside
`updateGame` (with its random draws made explicit; the shuffled lists must be
permutations of the lists the source shuffles).  A real frame is
`handleInput(); updateGame(dt)`, i.e. a `frame` step optionally followed by an
`ai` step; frames without input are `frame` steps with no click and no key,
which leave the state unchanged. -/
inductive Step : GameState → GameState → Prop where
  | frame (s : GameState) (click : Option (Int × Int)) (key : ImpulseMode) :
      Step s (handleInputFrame s click key)
  | ai (s : GameState) (f1 f2 : ImpulseMode) (i : Nat) (atk spd : List (Int × Int))
      (hfire : aiCanFire s)
      (hatk : atk.Perm (getAttackableCells s))
      (hspd : spd.Perm (getAvailableMoves s Cell.ai)) :
      Step s (processAITurnFired s f1 f2 i atk spd)

/-- States reachable in a session started from the menu (grid size 7, 10 or
12), via any interleaving of input frames and fired AI turns. -/
inductive Reachable : GameState → Prop where
  | init (n : Nat) (hn : n = 7 ∨ n = 10 ∨ n = 12) : Reachable (initializeGame n)
  | step (s s' : GameState) (hr : Reachable s) (hs : Step s s') : Reachable s'

theorem getD_mem {α : Type _} (d : α) :
    ∀ (l : List α) (i : Nat), i < l.length → l.getD i d ∈ l
  | _ :: _, 0, _ => by simp
  | a :: t, i + 1, h =>
      List.mem_cons_of_mem a (getD_mem d t i (by simpa using h))
  | [], _, h => by simp at h

theorem mem_intRange {n : Nat} {x : Int} : x ∈ intRange n ↔ 0 ≤ x ∧ x < (n : Int) := by
  rw [intRange]
  constructor
  · intro h
    obtain ⟨m, hm, heq⟩ := List.mem_map.mp h
    have := List.mem_range.mp hm
    omega
  · intro h
    exact List.mem_map.mpr ⟨x.toNat, List.mem_range.mpr (by omega), by omega⟩

theorem mem_scanCells {n : Nat} {p : Int → Int → Bool} {c : Int × Int} :
    c ∈ scanCells n p ↔
      0 ≤ c.1 ∧ c.1 < (n : Int) ∧ 0 ≤ c.2 ∧ c.2 < (n : Int) ∧ p c.1 c.2 = true := by
  obtain ⟨a, b⟩ := c
  simp only [scanCells, List.mem_flatMap, List.mem_map, List.mem_filter, mem_intRange]
  constructor
  · rintro ⟨x, hx, y, ⟨⟨hy1, hy2⟩, hp⟩, heq⟩
    obtain ⟨rfl, rfl⟩ := Prod.mk.injEq .. ▸ heq
    exact ⟨hx.1, hx.2, hy1, hy2, hp⟩
  · rintro ⟨h1, h2, h3, h4, hp⟩
    exact ⟨a, ⟨h1, h2⟩, b, ⟨⟨h3, h4⟩, hp⟩, rfl⟩

theorem mem_getAvailableMoves {s : GameState} {p : Cell} {x y : Int} :
    (x, y) ∈ getAvailableMoves s p ↔ isValidMove s x y p = true := by
  rw [getAvailableMoves, mem_scanCells, isValidMove]
  simp only [Bool.and_eq_true, decide_eq_true_eq, beq_iff_eq, inPlayArea]
  tauto

theorem isValidMove_iff (s : GameState) (x y : Int) (p : Cell) :
    isValidMove s x y p = true ↔
      inPlayArea s.gridSize (x, y) ∧ cellAt s.grid x y = Cell.neutral ∧
        ∃ c ∈ getAdjacentCells s.gridSize x y, cellAt s.grid c.1 c.2 = p := by
  rw [isValidMove]
  simp only [Bool.and_eq_true, decide_eq_true_eq, beq_iff_eq, List.any_eq_true]
  tauto

/-- A frame whose only input is a click, with impulse mode inactive, is
exactly the ordinary-capture branch `playerClick`. -/
theorem handleInputFrame_click_ordinary (s : GameState) (x y : Int)
    (h : s.impulseModeActive = false) :
    handleInputFrame s (Option.some (x, y)) ImpulseMode.none = playerClick s x y := by
  unfold handleInputFrame playerClick
  simp only []
  by_cases hg : s.playerTurn = true ∧ s.impulseModeActive = false
  · simp only [if_pos hg]
    by_cases hb : inPlayArea s.gridSize (x, y)
    · simp only [if_pos hb]
      by_cases hc : cellAt s.grid x y = Cell.neutral ∧ isValidMove s x y Cell.player = true
      · simp only [if_pos hc]
        rw [if_neg (by rintro ⟨ha, -⟩; exact absurd ha (by simp [h]))]
      · simp only [if_neg hc]
        rw [if_neg (by rintro ⟨ha, -⟩; exact absurd ha (by simp [h]))]
    · simp only [if_neg hb]
      rw [if_neg (by rintro ⟨ha, -⟩; exact absurd ha (by simp [h]))]
  · simp only [if_neg hg]
    rw [if_neg (by rintro ⟨ha, -⟩; exact absurd ha (by simp [h]))]

/-- A frame whose only input is a click, with impulse mode already active, is
exactly the impulse-selection branch `impulseClick`. -/
theorem handleInputFrame_click_impulse (s : GameState) (x y : Int)
    (h : s.impulseModeActive = true) :
    handleInputFrame s (Option.some (x, y)) ImpulseMode.none = impulseClick s x y := by
  unfold handleInputFrame impulseClick
  simp only []
  have hgneg : ¬(s.playerTurn = true ∧ s.impulseModeActive = false) := by
    rintro ⟨-, hna⟩
    exact absurd hna (by simp [h])
  simp only [if_neg hgneg]

/-- A frame whose only input is an `A`/`S` key press is exactly
`pressImpulseKey`. -/
theorem handleInputFrame_key_only (s : GameState) (m : ImpulseMode)
    (hm : m ≠ ImpulseMode.none) :
    handleInputFrame s Option.none m = pressImpulseKey s m := by
  unfold handleInputFrame pressImpulseKey
  cases m
  · exact absurd rfl hm
  all_goals
    simp only []
    by_cases hg : s.playerTurn = true ∧ s.impulseModeActive = false
    · simp only [if_pos hg]
      by_cases hch : s.playerCharges ≥ impulseCost
      · rw [if_pos hch, if_pos (And.intro hg.1 (And.intro hg.2 hch))]
      · rw [if_neg hch, if_neg (by rintro ⟨-, -, hc⟩; exact hch hc)]
    · simp only [if_neg hg]
      rw [if_neg (by rintro ⟨h1, h2, -⟩; exact hg (And.intro h1 h2))]

/-- An input-free frame leaves the state unchanged. -/
theorem handleInputFrame_idle (s : GameState) :
    handleInputFrame s Option.none ImpulseMode.none = s := by
  unfold handleInputFrame
  simp only []
  by_cases hg : s.playerTurn = true ∧ s.impulseModeActive = false
  · rw [if_pos hg]
  · rw [if_neg hg]

/-- C1: starting a session from the menu is supposed to (re)create a
`gridSize × gridSize` grid with all reinitialisation accesses in bounds.  The
code's `resetGame` never resizes the grid: after the launch-time allocation at
the default size 10, starting a 12×12 session writes `grid[x][y]` for
`x, y` up to 11 and `grid[11][11]` on the still-10×10 vectors (out of bounds,
undefined behaviour in C++), and no 12×12 grid is ever created.  With the
matching size 10 every access is in bounds. -/
theorem resetGame_oob_on_regrow :
    resetAccessesOK (initializeGame 10).grid 10 ∧
    ¬ resetAccessesOK (initializeGame 10).grid 12 ∧
    (resetGameGrid (initializeGame 10).grid 12).length = 10 ∧
    (resetGame (initializeGame 10).grid 12).gridSize = 12 := by
  refine ⟨by decide, by decide, by decide, rfl⟩

/-- C2: during the player's turn outside impulse mode, a click at `(x, y)`
captures iff the cell is in bounds, neutral, and 4-adjacent to a player cell;
on success the cell becomes `PLAYER`, `playerCells` and `playerCharges` each
grow by 1 and the turn passes to the AI; otherwise the state is unchanged
(and the turn stays with the player). -/
theorem player_capture_spec (s : GameState) (x y : Int)
    (hturn : s.playerTurn = true) (hmode : s.impulseModeActive = false) :
    (inPlayArea s.gridSize (x, y) ∧ cellAt s.grid x y = Cell.neutral ∧
        (∃ c ∈ getAdjacentCells s.gridSize x y, cellAt s.grid c.1 c.2 = Cell.player) →
      playerClick s x y =
        { s with grid := setCell s.grid x y Cell.player
                 playerCells := s.playerCells + 1
                 playerCharges := s.playerCharges + 1
                 playerTurn := false }) ∧
    (¬(inPlayArea s.gridSize (x, y) ∧ cellAt s.grid x y = Cell.neutral ∧
        (∃ c ∈ getAdjacentCells s.gridSize x y, cellAt s.grid c.1 c.2 = Cell.player)) →
      playerClick s x y = s) := by
  unfold playerClick
  rw [if_pos (And.intro hturn hmode)]
  constructor
  · rintro ⟨h1, h2, h3⟩
    rw [if_pos h1, if_pos (And.intro h2 ((isValidMove_iff s x y Cell.player).mpr ⟨h1, h2, h3⟩))]
  · intro hno
    by_cases h1 : inPlayArea s.gridSize (x, y)
    · rw [if_pos h1]
      by_cases h2 : cellAt s.grid x y = Cell.neutral ∧ isValidMove s x y Cell.player = true
      · exact absurd ⟨h1, ((isValidMove_iff s x y Cell.player).mp h2.2).2⟩ hno
      · rw [if_neg h2]
    · rw [if_neg h1]

/-- Witness for C2: on a fresh 7×7 board, clicking `(1, 0)` (adjacent to the
player's `(0, 0)` corner) succeeds with the stated effect. -/
theorem player_capture_spec_witness :
    (initializeGame 7).playerTurn = true ∧
    (initializeGame 7).impulseModeActive = false ∧
    playerClick (initializeGame 7) 1 0 =
      { initializeGame 7 with
          grid := setCell (initializeGame 7).grid 1 0 Cell.player
          playerCells := (initializeGame 7).playerCells + 1
          playerCharges := (initializeGame 7).playerCharges + 1
          playerTurn := false } :=
  ⟨rfl, rfl, (player_capture_spec (initializeGame 7) 1 0 rfl rfl).1 (by decide)⟩

/-- `targetCells` is the ceiling of `gridSize² × 45 / 100`: `100 · target` is
at least `45 · gridSize²` and overshoots it by less than 100. -/
theorem targetCells_is_ceil (n : Nat) :
    45 * (n * n) ≤ 100 * targetCells n ∧
      100 * targetCells n < 45 * (n * n) + 100 := by
  unfold targetCells winPercentage
  generalize n * n = m
  omega

/-- C4: the win target is `ceil(gridSize² × 45 / 100)`; `checkWinCondition`
(run after every fired AI turn, which is how `processAITurnFired` ends) sets
draw when both counters reach it, a player win when only the player does, an
AI win when only the AI does, and leaves `gameResult` unchanged otherwise.
For `gridSize = 10` the target is 45 and `(45,44)`, `(45,45)`, `(44,44)` give
player win, draw, and no result respectively. -/
theorem win_condition_spec (s : GameState) :
    (45 * (s.gridSize * s.gridSize) ≤ 100 * targetCells s.gridSize ∧
      100 * targetCells s.gridSize < 45 * (s.gridSize * s.gridSize) + 100) ∧
    (checkWinCondition s).gameResult =
      (if s.playerCells ≥ (targetCells s.gridSize : Int) ∧
          s.aiCells ≥ (targetCells s.gridSize : Int) then GameResult.draw
       else if s.playerCells ≥ (targetCells s.gridSize : Int) then GameResult.playerWin
       else if s.aiCells ≥ (targetCells s.gridSize : Int) then GameResult.aiWin
       else s.gameResult) ∧
    (∀ f1 f2 i atk spd, processAITurnFired s f1 f2 i atk spd
        = checkWinCondition { aiAct s f1 f2 i atk spd with playerTurn := true }) ∧
    targetCells 10 = 45 ∧
    (checkWinCondition
        { s with gridSize := 10
                 playerCells := 45
                 aiCells := 44 }).gameResult = GameResult.playerWin ∧
    (checkWinCondition
        { s with gridSize := 10
                 playerCells := 45
                 aiCells := 45 }).gameResult = GameResult.draw ∧
    (checkWinCondition
        { s with gridSize := 10
                 playerCells := 44
                 aiCells := 44
                 gameResult := GameResult.none }).gameResult = GameResult.none := by
  refine ⟨targetCells_is_ceil s.gridSize, ?_, fun _ _ _ _ _ => rfl, rfl, ?_, ?_, ?_⟩
  · unfold checkWinCondition
    split
    · rfl
    · split
      · rfl
      · split
        · rfl
        · rfl
  · unfold checkWinCondition
    norm_num [targetCells, winPercentage]
  · unfold checkWinCondition
    norm_num [targetCells, winPercentage]
  · unfold checkWinCondition
    norm_num [targetCells, winPercentage]

/-- C5: a player attack impulse needs `playerCharges ≥ impulseCost` to enter;
valid targets (AI cells with a player neighbour, not yet selected) accumulate,
and exactly on the second selection both cells flip to `PLAYER`,
`aiCells -= 2`, `playerCells += 2`, `playerCharges -= impulseCost` with no
charge gain, the selection clears and the turn passes to the AI. -/
theorem attack_impulse_spec (s : GameState) (x y : Int)
    (hact : s.impulseModeActive = true)
    (hmode : s.currentImpulseMode = ImpulseMode.attack)
    (hin : inPlayArea s.gridSize (x, y))
    (htgt : cellAt s.grid x y = Cell.ai ∧
      (getAdjacentCells s.gridSize x y).any
        (fun c => cellAt s.grid c.1 c.2 == Cell.player) = true)
    (hnew : (x, y) ∉ s.selectedCells) :
    (∀ (t : GameState) (m : ImpulseMode), t.playerCharges < impulseCost →
      pressImpulseKey t m = t) ∧
    (s.selectedCells = [] →
      impulseClick s x y = { s with selectedCells := [(x, y)] }) ∧
    (∀ c0 : Int × Int, s.selectedCells = [c0] →
      impulseClick s x y =
        { s with grid := setCell (setCell s.grid c0.1 c0.2 Cell.player) x y Cell.player
                 playerCells := s.playerCells + 2
                 aiCells := s.aiCells - 2
                 playerCharges := s.playerCharges - impulseCost
                 playerTurn := false
                 impulseModeActive := false
                 currentImpulseMode := ImpulseMode.none
                 selectedCells := [] }) := by
  refine ⟨?_, ?_, ?_⟩
  · intro t m hlt
    unfold pressImpulseKey
    rw [if_neg (by rintro ⟨-, -, hge⟩; omega)]
  · intro hsel
    unfold impulseClick
    rw [if_pos (And.intro hact hin)]
    unfold handleImpulseCellSelection
    simp only [hmode]
    rw [if_pos htgt]
    simp only [hsel]
    rw [if_neg (by simp)]
    rw [if_neg (by simp)]
    rfl
  · intro c0 hsel
    unfold impulseClick
    rw [if_pos (And.intro hact hin)]
    unfold handleImpulseCellSelection
    simp only [hmode]
    rw [if_pos htgt]
    rw [hsel] at hnew ⊢
    have hdup : ¬((x, y) ∈ [c0] ∨ 2 ≤ ([c0] : List (Int × Int)).length) := by
      push_neg
      exact ⟨hnew, by simp⟩
    simp only [if_neg hdup]
    rw [if_pos (by simp)]
    simp only [List.cons_append, List.nil_append, bulkCapture]
    simp only [GameState.mk.injEq, and_true, true_and]
    omega

/-- A small session state in attack-impulse mode with one target already
selected, used to exercise the attack-impulse resolution. -/
def attackDemo : GameState :=
  { gridSize := 3
    grid := [[Cell.player, Cell.player, Cell.player],
             [Cell.player, Cell.player, Cell.neutral],
             [Cell.ai, Cell.ai, Cell.ai]]
    playerCells := 5
    aiCells := 3
    playerCharges := 3
    aiCharges := 0
    playerTurn := true
    impulseModeActive := true
    currentImpulseMode := ImpulseMode.attack
    selectedCells := [(2, 0)]
    gameResult := GameResult.none }

/-- Witness for C5: selecting the second attack target `(2, 1)` in
`attackDemo` resolves the impulse with the stated bulk effect. -/
theorem attack_impulse_spec_witness :
    impulseClick attackDemo 2 1 =
      { attackDemo with
          grid := setCell (setCell attackDemo.grid 2 0 Cell.player) 2 1 Cell.player
          playerCells := attackDemo.playerCells + 2
          aiCells := attackDemo.aiCells - 2
          playerCharges := attackDemo.playerCharges - impulseCost
          playerTurn := false
          impulseModeActive := false
          currentImpulseMode := ImpulseMode.none
          selectedCells := [] } :=
  (attack_impulse_spec attackDemo 2 1 rfl rfl (by decide) (by decide)
    (by decide)).2.2 (2, 0) rfl

/-- C6: a player speed impulse needs `playerCharges ≥ impulseCost` to enter;
valid targets (neutral cells legal for the player, not yet selected)
accumulate up to 3, and exactly on the third selection all three become
`PLAYER`, `playerCells += 3`, `playerCharges -= impulseCost` with no charge
gain, the selection clears and the turn passes to the AI. -/
theorem speed_impulse_spec (s : GameState) (x y : Int)
    (hact : s.impulseModeActive = true)
    (hmode : s.currentImpulseMode = ImpulseMode.speed)
    (hin : inPlayArea s.gridSize (x, y))
    (htgt : cellAt s.grid x y = Cell.neutral ∧ isValidMove s x y Cell.player = true)
    (hnew : (x, y) ∉ s.selectedCells) :
    (∀ (t : GameState) (m : ImpulseMode), t.playerCharges < impulseCost →
      pressImpulseKey t m = t) ∧
    (s.selectedCells.length ≤ 1 →
      impulseClick s x y = { s with selectedCells := s.selectedCells ++ [(x, y)] }) ∧
    (∀ c0 c1 : Int × Int, s.selectedCells = [c0, c1] →
      impulseClick s x y =
        { s with grid := setCell (setCell (setCell s.grid c0.1 c0.2 Cell.player)
                   c1.1 c1.2 Cell.player) x y Cell.player
                 playerCells := s.playerCells + 3
                 aiCells := s.aiCells
                 playerCharges := s.playerCharges - impulseCost
                 playerTurn := false
                 impulseModeActive := false
                 currentImpulseMode := ImpulseMode.none
                 selectedCells := [] }) := by
  refine ⟨?_, ?_, ?_⟩
  · intro t m hlt
    unfold pressImpulseKey
    rw [if_neg (by rintro ⟨-, -, hge⟩; omega)]
  · intro hsel
    unfold impulseClick
    rw [if_pos (And.intro hact hin)]
    unfold handleImpulseCellSelection
    simp only [hmode]
    rw [if_pos htgt]
    have hdup : ¬((x, y) ∈ s.selectedCells ∨ 3 ≤ s.selectedCells.length) := by
      push_neg
      exact ⟨hnew, by omega⟩
    simp only [if_neg hdup]
    rw [if_neg (by simp only [List.length_append, List.length_singleton]; omega)]
  · intro c0 c1 hsel
    unfold impulseClick
    rw [if_pos (And.intro hact hin)]
    unfold handleImpulseCellSelection
    simp only [hmode]
    rw [if_pos htgt]
    rw [hsel] at hnew ⊢
    have hdup : ¬((x, y) ∈ [c0, c1] ∨ 3 ≤ ([c0, c1] : List (Int × Int)).length) := by
      push_neg
      exact ⟨hnew, by simp⟩
    simp only [if_neg hdup]
    rw [if_pos (by simp)]
    simp only [List.cons_append, List.nil_append, bulkCapture]
    simp only [GameState.mk.injEq, and_true, true_and]
    omega

/-- A small session state in speed-impulse mode with two targets already
selected, used to exercise the speed-impulse resolution. -/
def speedDemo : GameState :=
  { gridSize := 3
    grid := [[Cell.player, Cell.player, Cell.player],
             [Cell.neutral, Cell.neutral, Cell.neutral],
             [Cell.ai, Cell.ai, Cell.ai]]
    playerCells := 3
    aiCells := 3
    playerCharges := 3
    aiCharges := 0
    playerTurn := true
    impulseModeActive := true
    currentImpulseMode := ImpulseMode.speed
    selectedCells := [(1, 0), (1, 1)]
    gameResult := GameResult.none }

/-- Witness for C6: selecting the third speed target `(1, 2)` in `speedDemo`
resolves the impulse with the stated bulk effect. -/
theorem speed_impulse_spec_witness :
    impulseClick speedDemo 1 2 =
      { speedDemo with
          grid := setCell (setCell (setCell speedDemo.grid 1 0 Cell.player)
            1 1 Cell.player) 1 2 Cell.player
          playerCells := speedDemo.playerCells + 3
          aiCells := speedDemo.aiCells
          playerCharges := speedDemo.playerCharges - impulseCost
          playerTurn := false
          impulseModeActive := false
          currentImpulseMode := ImpulseMode.none
          selectedCells := [] } :=
  (speed_impulse_spec speedDemo 1 2 rfl rfl (by decide) (by decide)
    (by decide)).2.2 (1, 0) (1, 1) rfl

/-- C7: every invalid input is a silent no-op that neither mutates session
state nor consumes the turn: entering impulse mode with too few charges,
clicking an illegal cell, selecting an invalid impulse target, and
re-selecting an already-selected impulse target all leave the state exactly
as it was. -/
theorem invalid_input_noop (s : GameState) (x y : Int) :
    (s.playerCharges < impulseCost → ∀ m, pressImpulseKey s m = s) ∧
    (isValidMove s x y Cell.player ≠ true → playerClick s x y = s) ∧
    (s.currentImpulseMode = ImpulseMode.attack →
      ¬(cellAt s.grid x y = Cell.ai ∧
        (getAdjacentCells s.gridSize x y).any
          (fun c => cellAt s.grid c.1 c.2 == Cell.player) = true) →
      impulseClick s x y = s) ∧
    (s.currentImpulseMode = ImpulseMode.speed →
      isValidMove s x y Cell.player ≠ true → impulseClick s x y = s) ∧
    (s.currentImpulseMode = ImpulseMode.attack → (x, y) ∈ s.selectedCells →
      s.selectedCells.length < 2 → impulseClick s x y = s) ∧
    (s.currentImpulseMode = ImpulseMode.speed → (x, y) ∈ s.selectedCells →
      s.selectedCells.length < 3 → impulseClick s x y = s) := by
  refine ⟨?_, ?_, ?_, ?_, ?_, ?_⟩
  · intro hlt m
    unfold pressImpulseKey
    rw [if_neg (by rintro ⟨-, -, hge⟩; omega)]
  · intro hnv
    unfold playerClick
    by_cases h1 : s.playerTurn = true ∧ s.impulseModeActive = false
    · rw [if_pos h1]
      by_cases h2 : inPlayArea s.gridSize (x, y)
      · rw [if_pos h2, if_neg (fun hc => hnv hc.2)]
      · rw [if_neg h2]
    · rw [if_neg h1]
  · intro hm hnt
    unfold impulseClick
    by_cases hg : s.impulseModeActive = true ∧ inPlayArea s.gridSize (x, y)
    · rw [if_pos hg]
      unfold handleImpulseCellSelection
      simp only [hm]
      rw [if_neg hnt]
    · rw [if_neg hg]
  · intro hm hnv
    unfold impulseClick
    by_cases hg : s.impulseModeActive = true ∧ inPlayArea s.gridSize (x, y)
    · rw [if_pos hg]
      unfold handleImpulseCellSelection
      simp only [hm]
      rw [if_neg (fun hc => hnv hc.2)]
    · rw [if_neg hg]
  · intro hm hmem hlen
    unfold impulseClick
    by_cases hg : s.impulseModeActive = true ∧ inPlayArea s.gridSize (x, y)
    · rw [if_pos hg]
      unfold handleImpulseCellSelection
      simp only [hm]
      by_cases ht : cellAt s.grid x y = Cell.ai ∧
          (getAdjacentCells s.gridSize x y).any
            (fun c => cellAt s.grid c.1 c.2 == Cell.player) = true
      · rw [if_pos ht]
        simp only [if_pos (Or.inl hmem)]
        rw [if_neg (by omega), ← hm]
      · rw [if_neg ht]
    · rw [if_neg hg]
  · intro hm hmem hlen
    unfold impulseClick
    by_cases hg : s.impulseModeActive = true ∧ inPlayArea s.gridSize (x, y)
    · rw [if_pos hg]
      unfold handleImpulseCellSelection
      simp only [hm]
      by_cases ht : cellAt s.grid x y = Cell.neutral ∧ isValidMove s x y Cell.player = true
      · rw [if_pos ht]
        simp only [if_pos (Or.inl hmem)]
        rw [if_neg (by omega), ← hm]
      · rw [if_neg ht]
    · rw [if_neg hg]

/-- Witness for C7: on a fresh 7×7 board (0 charges) the attack key is
ignored, and clicking the far-away cell `(5, 5)` is ignored. -/
theorem invalid_input_noop_witness :
    pressImpulseKey (initializeGame 7) ImpulseMode.attack = initializeGame 7 ∧
    playerClick (initializeGame 7) 5 5 = initializeGame 7 :=
  ⟨(invalid_input_noop (initializeGame 7) 5 5).1 (by decide) ImpulseMode.attack,
   (invalid_input_noop (initializeGame 7) 5 5).2.1 (by decide)⟩

/-- C8: when the AI turn fires and resolves as an ordinary capture, the move
list is exactly the set of legal AI targets, the drawn index picks an element
of it (the cell becomes AI with `aiCells` and `aiCharges` each up by one and
the turn returned to the player), and with no legal target the AI passes —
grid, counters and charges untouched — while the turn still returns. -/
theorem ai_ordinary_capture_spec (s : GameState) (f1 f2 : ImpulseMode) (i : Nat)
    (atk spd : List (Int × Int))
    (hbr1 : ¬(s.aiCharges ≥ impulseCost ∧ f1 = ImpulseMode.attack))
    (hbr2 : ¬(s.aiCharges ≥ impulseCost ∧ f2 = ImpulseMode.speed)) :
    (∀ a b : Int,
      (a, b) ∈ getAvailableMoves s Cell.ai ↔ isValidMove s a b Cell.ai = true) ∧
    (i < (getAvailableMoves s Cell.ai).length →
      getAIMove s i ∈ getAvailableMoves s Cell.ai ∧
      processAITurnFired s f1 f2 i atk spd =
        checkWinCondition
          { s with grid := setCell s.grid (getAIMove s i).1 (getAIMove s i).2 Cell.ai
                   aiCells := s.aiCells + 1
                   aiCharges := s.aiCharges + 1
                   playerTurn := true }) ∧
    (getAvailableMoves s Cell.ai = [] →
      processAITurnFired s f1 f2 i atk spd
        = checkWinCondition { s with playerTurn := true }) := by
  refine ⟨fun a b => mem_getAvailableMoves, ?_, ?_⟩
  · intro hi
    have hemp : (getAvailableMoves s Cell.ai).isEmpty = false := by
      cases hml : getAvailableMoves s Cell.ai
      · rw [hml] at hi
        simp at hi
      · simp [hml]
    have hmem : getAIMove s i ∈ getAvailableMoves s Cell.ai := by
      rw [getAIMove, if_neg (by rw [hemp]; simp)]
      exact getD_mem _ _ _ (Nat.mod_lt i (by omega))
    have hne1 : (getAIMove s i).1 ≠ -1 := by
      have hv : isValidMove s (getAIMove s i).1 (getAIMove s i).2 Cell.ai = true :=
        mem_getAvailableMoves.mp (by simpa using hmem)
      have h0 := ((isValidMove_iff s _ _ Cell.ai).mp hv).1.1
      omega
    refine ⟨hmem, ?_⟩
    unfold processAITurnFired aiAct
    rw [if_neg hbr1, if_neg hbr2]
    simp only []
    rw [if_pos hne1]
  · intro hempty
    unfold processAITurnFired aiAct
    rw [if_neg hbr1, if_neg hbr2]
    simp only []
    rw [if_neg (by rw [getAIMove, if_pos (by rw [hempty]; rfl)]; simp)]

/-- A 7×7 session state at the start of an AI turn (used as the concrete AI
turn of the C8 and C9 witnesses). -/
def aiTurnDemo : GameState :=
  { initializeGame 7 with
      playerTurn := false }

/-- Witness for C8: on `aiTurnDemo` (no charges, so the ordinary branch runs)
index 0 picks a legal move and the AI turn has the stated effect. -/
theorem ai_ordinary_capture_spec_witness :
    getAIMove aiTurnDemo 0 ∈ getAvailableMoves aiTurnDemo Cell.ai ∧
    processAITurnFired aiTurnDemo ImpulseMode.none ImpulseMode.none 0 [] [] =
      checkWinCondition
        { aiTurnDemo with
            grid := setCell aiTurnDemo.grid (getAIMove aiTurnDemo 0).1
              (getAIMove aiTurnDemo 0).2 Cell.ai
            aiCells := aiTurnDemo.aiCells + 1
            aiCharges := aiTurnDemo.aiCharges + 1
            playerTurn := true } :=
  (ai_ordinary_capture_spec aiTurnDemo ImpulseMode.none ImpulseMode.none 0 [] []
    (by decide) (by decide)).2.1 (by decide)

theorem checkWinCondition_aiCharges (t : GameState) :
    (checkWinCondition t).aiCharges = t.aiCharges := by
  unfold checkWinCondition
  split
  · rfl
  · split
    · rfl
    · split
      · rfl
      · rfl

/-- C9: the AI impulse coin is flipped once in the Attack branch check and
once more in the Speed branch check.  When the first flip yields Speed and the
second yields Attack, neither impulse branch fires even with
`aiCharges ≥ impulseCost`: the turn falls through to the ordinary capture,
and (when a move exists) `aiCharges` goes up by one instead of being debited. -/
theorem ai_double_flip_quirk (s : GameState) (i : Nat) (atk spd : List (Int × Int))
    (_hch : s.aiCharges ≥ impulseCost) :
    aiAct s ImpulseMode.speed ImpulseMode.attack i atk spd =
      (if (getAIMove s i).1 ≠ -1 then
        { s with grid := setCell s.grid (getAIMove s i).1 (getAIMove s i).2 Cell.ai
                 aiCells := s.aiCells + 1
                 aiCharges := s.aiCharges + 1 }
       else s) ∧
    (getAvailableMoves s Cell.ai ≠ [] →
      (processAITurnFired s ImpulseMode.speed ImpulseMode.attack i atk spd).aiCharges
        = s.aiCharges + 1) := by
  have hbody : aiAct s ImpulseMode.speed ImpulseMode.attack i atk spd =
      (if (getAIMove s i).1 ≠ -1 then
        { s with grid := setCell s.grid (getAIMove s i).1 (getAIMove s i).2 Cell.ai
                 aiCells := s.aiCells + 1
                 aiCharges := s.aiCharges + 1 }
       else s) := by
    unfold aiAct
    rw [if_neg (by rintro ⟨-, hf⟩; exact absurd hf (by simp)),
      if_neg (by rintro ⟨-, hf⟩; exact absurd hf (by simp))]
  refine ⟨hbody, ?_⟩
  intro hne
  have hemp : (getAvailableMoves s Cell.ai).isEmpty = false := by
    cases hml : getAvailableMoves s Cell.ai
    · exact absurd hml hne
    · simp [hml]
  have hmem : getAIMove s i ∈ getAvailableMoves s Cell.ai := by
    rw [getAIMove, if_neg (by rw [hemp]; simp)]
    refine getD_mem _ _ _ (Nat.mod_lt i ?_)
    cases hml : getAvailableMoves s Cell.ai
    · exact absurd hml hne
    · simp [hml]
  have hne1 : (getAIMove s i).1 ≠ -1 := by
    have hv : isValidMove s (getAIMove s i).1 (getAIMove s i).2 Cell.ai = true :=
      mem_getAvailableMoves.mp (by simpa using hmem)
    have h0 := ((isValidMove_iff s _ _ Cell.ai).mp hv).1.1
    omega
  unfold processAITurnFired
  rw [checkWinCondition_aiCharges, hbody, if_pos hne1]

/-- The state for the C9 witness: the AI is on turn holding exactly
`impulseCost` charges. -/
def doubleFlipDemo : GameState :=
  { initializeGame 7 with
      playerTurn := false
      aiCharges := 3 }

/-- Witness for C9: on `doubleFlipDemo` (charges = 3 ≥ cost) the
Speed-then-Attack flip outcome performs an ordinary capture: charges rise from
3 to 4 instead of being spent on an impulse. -/
theorem ai_double_flip_quirk_witness :
    (processAITurnFired doubleFlipDemo ImpulseMode.speed ImpulseMode.attack 0
      (getAttackableCells doubleFlipDemo)
      (getAvailableMoves doubleFlipDemo Cell.ai)).aiCharges
      = doubleFlipDemo.aiCharges + 1 :=
  (ai_double_flip_quirk doubleFlipDemo 0 (getAttackableCells doubleFlipDemo)
    (getAvailableMoves doubleFlipDemo Cell.ai) (by decide)).2 (by decide)

/-- A concrete 7×7 replay exhibiting the `handleInput` ordering race.
The player captures `(1,0), (2,0), (3,0), (4,0), (5,0), (6,0)` along the top
edge while the AI (whose uniform draws are steered by the recorded indices)
captures `(6,5), (6,4), (6,3), (6,2), (5,6), (4,6)` down its column.  Then
one frame carries BOTH a valid capture click at `(0,1)` AND the `S` key:
the click ends the player's turn and raises `playerCharges` to 7, after
which the key branch — still inside the turn guard evaluated at frame
entry — activates speed-impulse selection with `playerTurn = false`
(`race13`).  The pending selection then takes `(6,1)` during the AI's turn
(`race14`), the AI ordinarily captures the selected `(6,1)` (`race15`), and
the remaining selections `(1,1)` and `(2,1)` resolve the impulse (`race17`),
flipping the now-AI-owned `(6,1)` to `PLAYER` with `playerCells++` only. -/
def race1 : GameState :=
  handleInputFrame (initializeGame 7) (Option.some (1, 0)) ImpulseMode.none

def race2 : GameState :=
  processAITurnFired race1 ImpulseMode.none ImpulseMode.none 1
    (getAttackableCells race1) (getAvailableMoves race1 Cell.ai)

def race3 : GameState := handleInputFrame race2 (Option.some (2, 0)) ImpulseMode.none

def race4 : GameState :=
  processAITurnFired race3 ImpulseMode.none ImpulseMode.none 2
    (getAttackableCells race3) (getAvailableMoves race3 Cell.ai)

def race5 : GameState := handleInputFrame race4 (Option.some (3, 0)) ImpulseMode.none

def race6 : GameState :=
  processAITurnFired race5 ImpulseMode.none ImpulseMode.none 3
    (getAttackableCells race5) (getAvailableMoves race5 Cell.ai)

def race7 : GameState := handleInputFrame race6 (Option.some (4, 0)) ImpulseMode.none

def race8 : GameState :=
  processAITurnFired race7 ImpulseMode.none ImpulseMode.none 4
    (getAttackableCells race7) (getAvailableMoves race7 Cell.ai)

def race9 : GameState := handleInputFrame race8 (Option.some (5, 0)) ImpulseMode.none

def race10 : GameState :=
  processAITurnFired race9 ImpulseMode.none ImpulseMode.none 4
    (getAttackableCells race9) (getAvailableMoves race9 Cell.ai)

def race11 : GameState := handleInputFrame race10 (Option.some (6, 0)) ImpulseMode.none

def race12 : GameState :=
  processAITurnFired race11 ImpulseMode.none ImpulseMode.none 0
    (getAttackableCells race11) (getAvailableMoves race11 Cell.ai)

/-- The race frame: a valid capture click at `(0,1)` and the `S` key in the
same frame. -/
def race13 : GameState := handleInputFrame race12 (Option.some (0, 1)) ImpulseMode.speed

/-- Selection of `(6,1)` while it is the AI's turn. -/
def race14 : GameState := handleInputFrame race13 (Option.some (6, 1)) ImpulseMode.none

/-- The AI's turn fires with the selection pending and captures the selected
`(6,1)` (index 6 of its 7 available moves). -/
def race15 : GameState :=
  processAITurnFired race14 ImpulseMode.none ImpulseMode.none 6
    (getAttackableCells race14) (getAvailableMoves race14 Cell.ai)

def race16 : GameState := handleInputFrame race15 (Option.some (1, 1)) ImpulseMode.none

/-- The third selection `(2,1)` resolves the speed impulse over the stale
selection `[(6,1), (1,1), (2,1)]`. -/
def race17 : GameState := handleInputFrame race16 (Option.some (2, 1)) ImpulseMode.none

theorem race_trace_reachable :
    Reachable race13 ∧ Reachable race14 ∧ Reachable race15 ∧ Reachable race17 := by
  have h0 : Reachable (initializeGame 7) := Reachable.init 7 (Or.inl rfl)
  have h1 : Reachable race1 :=
    Reachable.step _ _ h0 (Step.frame _ (Option.some (1, 0)) ImpulseMode.none)
  have h2 : Reachable race2 :=
    Reachable.step _ _ h1
      (Step.ai _ ImpulseMode.none ImpulseMode.none 1 _ _ (by decide)
        (List.Perm.refl _) (List.Perm.refl _))
  have h3 : Reachable race3 :=
    Reachable.step _ _ h2 (Step.frame _ (Option.some (2, 0)) ImpulseMode.none)
  have h4 : Reachable race4 :=
    Reachable.step _ _ h3
      (Step.ai _ ImpulseMode.none ImpulseMode.none 2 _ _ (by decide)
        (List.Perm.refl _) (List.Perm.refl _))
  have h5 : Reachable race5 :=
    Reachable.step _ _ h4 (Step.frame _ (Option.some (3, 0)) ImpulseMode.none)
  have h6 : Reachable race6 :=
    Reachable.step _ _ h5
      (Step.ai _ ImpulseMode.none ImpulseMode.none 3 _ _ (by decide)
        (List.Perm.refl _) (List.Perm.refl _))
  have h7 : Reachable race7 :=
    Reachable.step _ _ h6 (Step.frame _ (Option.some (4, 0)) ImpulseMode.none)
  have h8 : Reachable race8 :=
    Reachable.step _ _ h7
      (Step.ai _ ImpulseMode.none ImpulseMode.none 4 _ _ (by decide)
        (List.Perm.refl _) (List.Perm.refl _))
  have h9 : Reachable race9 :=
    Reachable.step _ _ h8 (Step.frame _ (Option.some (5, 0)) ImpulseMode.none)
  have h10 : Reachable race10 :=
    Reachable.step _ _ h9
      (Step.ai _ ImpulseMode.none ImpulseMode.none 4 _ _ (by decide)
        (List.Perm.refl _) (List.Perm.refl _))
  have h11 : Reachable race11 :=
    Reachable.step _ _ h10 (Step.frame _ (Option.some (6, 0)) ImpulseMode.none)
  have h12 : Reachable race12 :=
    Reachable.step _ _ h11
      (Step.ai _ ImpulseMode.none ImpulseMode.none 0 _ _ (by decide)
        (List.Perm.refl _) (List.Perm.refl _))
  have h13 : Reachable race13 :=
    Reachable.step _ _ h12 (Step.frame _ (Option.some (0, 1)) ImpulseMode.speed)
  have h14 : Reachable race14 :=
    Reachable.step _ _ h13 (Step.frame _ (Option.some (6, 1)) ImpulseMode.none)
  have h15 : Reachable race15 :=
    Reachable.step _ _ h14
      (Step.ai _ ImpulseMode.none ImpulseMode.none 6 _ _ (by decide)
        (List.Perm.refl _) (List.Perm.refl _))
  have h16 : Reachable race16 :=
    Reachable.step _ _ h15 (Step.frame _ (Option.some (1, 1)) ImpulseMode.none)
  have h17 : Reachable race17 :=
    Reachable.step _ _ h16 (Step.frame _ (Option.some (2, 1)) ImpulseMode.none)
  exact ⟨h13, h14, h15, h17⟩

/-- C10: the claimed invariant is false of the program.  After the same-frame
capture + `S` press (`race13`) impulse selection is active with
`playerTurn = false` and the AI gate `aiCanFire` open; one selection later
(`race14`) a target is pending, the AI still fires, and the fired AI turn
(`race15`) captures the pending target `(6,1)` while the selection survives.
The `handleInput` key branch runs inside the turn guard evaluated at frame
entry, after the click handler has already ended the player's turn. -/
theorem impulse_active_on_ai_turn :
    Reachable race13 ∧
    race13.impulseModeActive = true ∧
    race13.playerTurn = false ∧
    aiCanFire race13 ∧
    Reachable race14 ∧
    race14.impulseModeActive = true ∧
    race14.selectedCells = [(6, 1)] ∧
    aiCanFire race14 ∧
    Reachable race15 ∧
    race15.grid ≠ race14.grid ∧
    cellAt race15.grid 6 1 = Cell.ai ∧
    race15.selectedCells = [(6, 1)] :=
  ⟨race_trace_reachable.1, by decide, by decide, by decide,
   race_trace_reachable.2.1, by decide, by decide, by decide,
   race_trace_reachable.2.2.1, by decide, by decide, by decide⟩

/-- C3: the count invariant is violated by the program.  In `race17` the
speed impulse has just resolved (a resolved action: impulse mode off,
selection cleared) over the stale selection containing `(6,1)`, which the AI
had captured while the selection was pending; the resolution loop set it to
`PLAYER` with `playerCells++` only, so `aiCells` reads 8 while the grid holds
7 AI cells, and the three counts sum to 50 on the 49-cell board. -/
theorem count_desync_after_race :
    Reachable race17 ∧
    race17.impulseModeActive = false ∧
    race17.selectedCells = [] ∧
    race17.aiCells = 8 ∧
    countGrid race17.grid Cell.ai = 7 ∧
    race17.aiCells ≠ (countGrid race17.grid Cell.ai : Int) ∧
    race17.playerCells + race17.aiCells + (countGrid race17.grid Cell.neutral : Int)
      ≠ (race17.gridSize : Int) * (race17.gridSize : Int) :=
  ⟨race_trace_reachable.2.2.2, by decide, by decide, by decide, by decide,
   by decide, by decide⟩

end Terra
